/-
Verification of the LunaCal-to-GoHighLevel webhook bridge (src/server.js,
first variant of the file, lines 1-290). The JavaScript source is shallowly
embedded: option-valued fields model absent/null JSON members, JavaScript
truthiness of strings is the non-emptiness test, and the orchestrator is a
pure function from configuration, request body and the two upstream HTTP
results to an HTTP response together with the trace of CRM calls it issued.
-/
import Mathlib

namespace LunaCal

/-! ### JavaScript string and truthiness primitives -/

/-- Truthiness of an optional string: JavaScript treats undefined, null and
the empty string as falsy. -/
def otruthy : Option String → Bool
  | some s => !(s == "")
  | none => false

/-- JavaScript a || b on optional strings: the first operand when truthy,
otherwise the second. -/
def jsOr : Option String → Option String → Option String
  | some s, b => if s = "" then b else some s
  | none, b => b

/-- JavaScript a || b on plain strings (only the empty string is falsy). -/
def jsOrS (a b : String) : String := if a = "" then b else a

/-- JavaScript String(x) for a string-or-null value: String(null) is "null". -/
def jsStringOf : Option String → String
  | some s => s
  | none => "null"

/-- Whitespace class used by trim and the regex class backslash-s. -/
def isSpaceChar (c : Char) : Bool := c.isWhitespace

/-- Word-character class of the regex class backslash-w: ASCII letters,
digits and underscore. -/
def isWordChar (c : Char) : Bool := c.isAlphanum || c == '_'

/-- Drop leading and trailing whitespace, as JavaScript trim(). -/
def trimL (l : List Char) : List Char :=
  ((l.dropWhile isSpaceChar).reverse.dropWhile isSpaceChar).reverse

/-- JavaScript trim() on strings. -/
def jsTrim (s : String) : String := ⟨trimL s.data⟩

/-- JavaScript toLowerCase() (ASCII). -/
def jsLower (s : String) : String := ⟨s.data.map Char.toLower⟩

/-- JavaScript toUpperCase() (ASCII). -/
def jsUpper (s : String) : String := ⟨s.data.map Char.toUpper⟩

/-- Does the first list start with the second? -/
def startsWithL : List Char → List Char → Bool
  | _, [] => true
  | [], _ :: _ => false
  | c :: cs, p :: ps => c == p && startsWithL cs ps

/-- Does the first list contain the second as a contiguous run? -/
def containsL : List Char → List Char → Bool
  | [], pat => startsWithL [] pat
  | c :: t, pat => startsWithL (c :: t) pat || containsL t pat

/-- JavaScript includes(pat): contiguous-substring containment. -/
def strContainsSub (s pat : String) : Bool := containsL s.data pat.data

/-- JavaScript startsWith(pat). -/
def strStartsWithSub (s pat : String) : Bool := startsWithL s.data pat.data

/-- Split a character list at every occurrence of the separator, as
JavaScript split(sep) for a one-character separator. -/
def splitChar (sep : Char) : List Char → List (List Char)
  | [] => [[]]
  | c :: rest =>
    let r := splitChar sep rest
    if c == sep then [] :: r
    else
      match r with
      | [] => [[c]]
      | h :: t => (c :: h) :: t

/-- JavaScript split(sep) on strings for a one-character separator. -/
def strSplit (s : String) (sep : Char) : List String :=
  (splitChar sep s.data).map (fun l => ⟨l⟩)

/-! ### Association lists with JavaScript Map / object-literal semantics:
set overwrites in place, lookup finds the (unique) binding. -/

/-- Map.set / object property assignment: replace an existing binding in
place, otherwise append. -/
def mapSet {β : Type} : List (String × β) → String → β → List (String × β)
  | [], k, v => [(k, v)]
  | (k0, v0) :: rest, k, v =>
    if k0 = k then (k, v) :: rest else (k0, v0) :: mapSet rest k v

/-- Map.get / property read, as an option. -/
def mapLookup {β : Type} (m : List (String × β)) (k : String) : Option β :=
  (m.find? (fun p => p.1 == k)).map (fun p => p.2)

/-! ### Value Normalizer (normalizeDropdownValue, src/server.js:82-112) -/

/-- Synonym table for the role dropdown (src/server.js:87-95). -/
def roleOptions : List (String × String) :=
  [("ceo / founder", "CEO / Founder"),
   ("ceo/founder", "CEO / Founder"),
   ("chief marketing officer", "Chief Marketing Officer"),
   ("seo director", "SEO Director"),
   ("seo manager", "SEO Manager"),
   ("marketing manager", "Marketing Manager"),
   ("other", "Other")]

/-- Synonym table for the budget dropdown (src/server.js:98-105). -/
def budgetOptions : List (String × String) :=
  [("less than $5,000", "Less than $5,000"),
   ("less than $5000", "Less than $5,000"),
   ("between $5,000 - $10,000", "Between $5,000 - $10,000"),
   ("between $5000 - $10000", "Between $5,000 - $10,000"),
   ("more than $10,000", "More than $10,000"),
   ("more than $10000", "More than $10,000")]

/-- normalizeDropdownValue (src/server.js:82-112): falsy input is returned
unchanged; otherwise the input is trimmed, the trimmed value lower-cased for
lookup in the two synonym tables, and the canonical spelling returned on a
hit, the trimmed value otherwise. -/
def normalizeDropdownValue (value : Option String) : Option String :=
  match value with
  | none => none
  | some s =>
    if s = "" then some s
    else
      let val := jsTrim s
      let normalized := jsLower val
      jsOr (mapLookup roleOptions normalized)
        (jsOr (mapLookup budgetOptions normalized) (some val))

/-! ### Payload model -/

/-- One element of an attendees list, or the invitee object. -/
structure AttRec where
  name : Option String
  email : Option String
  phone : Option String
deriving DecidableEq

/-- One entry of the responses object: a question label and an answer. -/
structure RespEntry where
  label : Option String
  value : Option String
deriving DecidableEq

/-- The organizer object. -/
structure Organizer where
  email : Option String
deriving DecidableEq

/-- The payload bag, restricted to the members the bridge reads. -/
structure Payload where
  attendees : Option (List AttRec)
  responses : Option (List (String × RespEntry))
  invitee : Option AttRec
  name : Option String
  email : Option String
  phone : Option String
  organizer : Option Organizer
  startTime : Option String
  start : Option String
  endTime : Option String
  endAlt : Option String
  eventTitle : Option String
  title : Option String
deriving DecidableEq

/-- The payload with every member absent. -/
def emptyPayload : Payload :=
  ⟨none, none, none, none, none, none, none, none, none, none, none, none, none⟩

/-- The request body: event-name keys, an optional nested payload, and the
payload-shaped members of the body itself (used when payload is absent). -/
structure Body where
  triggerEvent : Option String
  event : Option String
  type : Option String
  payload : Option Payload
  self : Payload
deriving DecidableEq

/-- The empty request body. -/
def emptyBody : Body := ⟨none, none, none, none, emptyPayload⟩

/-- Property read on an object modelled as a keyed entry list. -/
def jsGet (rs : List (String × RespEntry)) (k : String) : Option RespEntry :=
  mapLookup rs k

/-- The extracted attendee triple (name defaults to Unknown). -/
structure Attendee where
  name : String
  email : Option String
  phone : Option String
deriving DecidableEq

/-- The ordered name sources of extractAttendee (src/server.js:67). -/
def nameSources (p : Payload) : List (Option String) :=
  [(p.attendees.bind List.head?).bind (fun a => a.name),
   (p.responses.bind (fun rs => jsGet rs "name")).bind (fun e => e.value),
   p.invitee.bind (fun a => a.name),
   p.name]

/-- The ordered email sources of extractAttendee (src/server.js:68). -/
def emailSources (p : Payload) : List (Option String) :=
  [(p.attendees.bind List.head?).bind (fun a => a.email),
   (p.responses.bind (fun rs => jsGet rs "email")).bind (fun e => e.value),
   p.invitee.bind (fun a => a.email),
   p.email]

/-- The ordered phone sources of extractAttendee (src/server.js:69). -/
def phoneSources (p : Payload) : List (Option String) :=
  [(p.attendees.bind List.head?).bind (fun a => a.phone),
   (p.responses.bind (fun rs => jsGet rs "phone")).bind (fun e => e.value),
   p.invitee.bind (fun a => a.phone),
   p.phone]

/-- extractAttendee (src/server.js:64-75): each field is a chain of
JavaScript || fallbacks over the four sources, the name chain ending in
"Unknown" and the email and phone chains ending in null. -/
def extractAttendee (p : Payload) : Attendee :=
  let attendee : Option AttRec := p.attendees.bind List.head?
  let name :=
    (jsOr (attendee.bind (fun a => a.name))
      (jsOr ((p.responses.bind (fun rs => jsGet rs "name")).bind (fun e => e.value))
        (jsOr (p.invitee.bind (fun a => a.name))
          (jsOr p.name (some "Unknown"))))).getD "Unknown"
  let email :=
    jsOr (attendee.bind (fun a => a.email))
      (jsOr ((p.responses.bind (fun rs => jsGet rs "email")).bind (fun e => e.value))
        (jsOr (p.invitee.bind (fun a => a.email))
          (jsOr p.email none)))
  let phone :=
    jsOr (attendee.bind (fun a => a.phone))
      (jsOr ((p.responses.bind (fun rs => jsGet rs "phone")).bind (fun e => e.value))
        (jsOr (p.invitee.bind (fun a => a.phone))
          (jsOr p.phone none)))
  ⟨name, email, phone⟩

/-- First truthy element of an ordered source list (none when all sources
are absent or falsy). -/
def firstTruthy : List (Option String) → Option String
  | [] => none
  | none :: rest => firstTruthy rest
  | some s :: rest => if s = "" then firstTruthy rest else some s

/-- First defined (present, possibly empty) element of an ordered source
list. This follows the specification words "takes the first defined
value", for comparison with the code. -/
def firstDefined : List (Option String) → Option String
  | [] => none
  | none :: rest => firstDefined rest
  | some s :: _ => some s

/-- Attendee extraction stated as: per field, the first truthy source, with
the documented defaults. -/
def extractAttendeeTruthy (p : Payload) : Attendee :=
  ⟨(firstTruthy (nameSources p)).getD "Unknown",
   firstTruthy (emailSources p),
   firstTruthy (phoneSources p)⟩

/-- Modelled from the specification claim: per field, the first defined
source, with the documented defaults. -/
def extractAttendeeFirstDefined (p : Payload) : Attendee :=
  ⟨(firstDefined (nameSources p)).getD "Unknown",
   firstDefined (emailSources p),
   firstDefined (phoneSources p)⟩

/-! ### Field Mapper (extractCustomFields, src/server.js:114-141, and the
CUSTOM_FIELD_MAPPING parser, src/server.js:44-50) -/

/-- The label normalization applied on both sides of the comparison at
src/server.js:124-125: trim, lower-case, strip every character that is
neither a word character nor whitespace, and collapse every whitespace run
to one space. -/
def collapseGo : Bool → List Char → List Char
  | _, [] => []
  | prevSpace, c :: rest =>
    if isSpaceChar c then
      if prevSpace then collapseGo true rest else ' ' :: collapseGo true rest
    else c :: collapseGo false rest

/-- Collapse every whitespace run to a single space (the replace of the
regex backslash-s-plus by one space). -/
def collapseWS (l : List Char) : List Char := collapseGo false l

/-- Strip every character that is neither a word character nor whitespace
(the replace of the negated word-or-space class by the empty string). -/
def stripNonWord (l : List Char) : List Char :=
  l.filter (fun c => isWordChar c || isSpaceChar c)

/-- The label normalization of the code: trim, lower-case, strip, collapse
(src/server.js:124-125). -/
def normalizeLabel (s : String) : String :=
  ⟨collapseWS (stripNonWord (jsLower (jsTrim s)).data)⟩

/-- Modelled from the specification claim wording: strip, lower-case,
collapse — without the initial trim. -/
def claimNormLabel (s : String) : String :=
  ⟨collapseWS ((stripNonWord s.data).map Char.toLower)⟩

/-- Does a response entry structurally match a configured label
(src/server.js:124-127)? The absent label reads as the empty string. -/
def entryMatches (targetLabel : String) (e : RespEntry) : Bool :=
  normalizeLabel (e.label.getD "") == normalizeLabel targetLabel

/-- The first response entry matching a configured label (the inner loop of
src/server.js:122-134 stops at the first match). -/
def findMatch (targetLabel : String) (rs : List (String × RespEntry)) :
    Option (String × RespEntry) :=
  rs.find? (fun p => entryMatches targetLabel p.2)

/-- Two keyed response entries agree up to re-punctuation, re-casing and
re-spacing of their labels (under the normalization of the code) and carry
the same value. -/
def labelValEquiv (p q : String × RespEntry) : Prop :=
  normalizeLabel (p.2.label.getD "") = normalizeLabel (q.2.label.getD "") ∧
  p.2.value = q.2.value

/-- One CUSTOM_FIELD_MAPPING item label:key (src/server.js:46-49): kept when
the raw label and key are both truthy, stored under the trimmed lower-cased
label with the trimmed key. -/
def fieldPairOfItem (item : String) : Option (String × String) :=
  let parts := strSplit item ':'
  match parts.get? 0, parts.get? 1 with
  | some label, some key =>
    if label ≠ "" && key ≠ "" then some (jsLower (jsTrim label), jsTrim key)
    else none
  | _, _ => none

/-- Fold the parsed CUSTOM_FIELD_MAPPING items into the field map. -/
def fieldMapBuild : List String → List (String × String) → List (String × String)
  | [], m => m
  | item :: rest, m =>
    match fieldPairOfItem item with
    | some (label, key) => fieldMapBuild rest (mapSet m label key)
    | none => fieldMapBuild rest m

/-- The field map parsed from the CUSTOM_FIELD_MAPPING configuration string
(src/server.js:44-50); empty configuration yields the empty map. -/
def fieldMapOf (cfg : String) : List (String × String) :=
  if cfg = "" then [] else fieldMapBuild (strSplit cfg ',') []

/-- The outer loop of extractCustomFields over the configured pairs, with
the accumulated fields object. -/
def extractFieldsGo (rs : List (String × RespEntry)) :
    List (String × String) → List (String × Option String) → List (String × Option String)
  | [], acc => acc
  | (targetLabel, ghlKey) :: rest, acc =>
    match findMatch targetLabel rs with
    | some e => extractFieldsGo rs rest (mapSet acc ghlKey (normalizeDropdownValue e.2.value))
    | none => extractFieldsGo rs rest acc

/-- extractCustomFields (src/server.js:114-141): for each configured pair in
order, store the normalized value of the first structurally matching
response entry under the outbound key; no match stores nothing. -/
def extractCustomFields (fm : List (String × String)) (p : Payload) :
    List (String × Option String) :=
  extractFieldsGo (p.responses.getD []) fm []

/-! ### Routing Resolver (calendarMap, src/server.js:31-42, and the lookup
at src/server.js:239-257) -/

/-- One calendar route: a calendar id and an optional assigned user id. -/
structure CalRoute where
  calId : String
  userId : Option String
deriving DecidableEq

/-- One CALENDAR_MAPPING item email:calendarId:userId
(src/server.js:33-41): kept when the trimmed lower-cased email and the
trimmed calendar id are both truthy. -/
def calRouteOfItem (item : String) : Option (String × CalRoute) :=
  let parts := strSplit item ':'
  match parts.get? 0, parts.get? 1 with
  | some e, some c =>
    let email := jsLower (jsTrim e)
    let calId := jsTrim c
    if email ≠ "" && calId ≠ "" then
      some (email, ⟨calId, (parts.get? 2).map jsTrim⟩)
    else none
  | _, _ => none

/-- Fold the parsed CALENDAR_MAPPING items into the calendar map. -/
def calendarMapBuild : List String → List (String × CalRoute) → List (String × CalRoute)
  | [], m => m
  | item :: rest, m =>
    match calRouteOfItem item with
    | some (email, r) => calendarMapBuild rest (mapSet m email r)
    | none => calendarMapBuild rest m

/-- The calendar map parsed from the CALENDAR_MAPPING configuration string
(src/server.js:31-42); empty configuration yields the empty map. -/
def calendarMapOf (cfg : String) : List (String × CalRoute) :=
  if cfg = "" then [] else calendarMapBuild (strSplit cfg ',') []

/-- The needle of the hard-coded domain correction (src/server.js:243). -/
def surajNeedle : String := "suraj.kumar@digitalwebsolutions"

/-- The canonical address the correction substitutes (src/server.js:244). -/
def surajCanonical : String := "suraj.kumar@digitalwebsolutions.in"

/-- The environment-supplied configuration (src/server.js:17-27). -/
structure Env where
  GHL_PRIVATE_TOKEN : Option String
  GHL_LOCATION_ID : Option String
  GHL_CALENDAR_ID : Option String
  CALENDAR_MAPPING : String
  CUSTOM_FIELD_MAPPING : String
deriving DecidableEq

/-- The key the routing lookup is performed on (src/server.js:239-245): the
lower-cased organizer email, empty when absent, rewritten to the canonical
address whenever it contains the needle. -/
def organizerKey (e : Option String) : String :=
  let base := (e.map jsLower).getD ""
  if strContainsSub base surajNeedle then surajCanonical else base

/-- The routing decision from a lookup key (src/server.js:247-257): a map
hit yields the mapped calendar and user, anything else the configured
default calendar with no user. -/
def routeFromKey (env : Env) (key : String) : Option String × Option String :=
  if key = "" then (env.GHL_CALENDAR_ID, none)
  else
    match mapLookup (calendarMapOf env.CALENDAR_MAPPING) key with
    | some m => (some m.calId, m.userId)
    | none => (env.GHL_CALENDAR_ID, none)

/-- The Routing Resolver (src/server.js:239-257) on the raw organizer
email. -/
def resolveRouting (env : Env) (e : Option String) : Option String × Option String :=
  routeFromKey env (organizerKey e)

/-! ### CRM Gateway (ghlRequest, src/server.js:144-173; upsertContact,
src/server.js:175-194; createAppointment, src/server.js:196-210) -/

/-- The observable part of one fetch result: HTTP status, raw response
text, and the JSON parse of that text when it succeeds. -/
structure FetchRes (α : Type) where
  status : Nat
  text : String
  parsed : Option α
deriving DecidableEq

/-- A response body as the code keeps it: the parsed JSON, or the raw text
wrapped when parsing failed (src/server.js:159-161). -/
inductive JsonOrRaw (α : Type) where
  | parsed (a : α)
  | raw (text : String)
deriving DecidableEq

/-- The typed failure thrown on a non-2xx status (src/server.js:163-169):
the upstream HTTP status and the parsed-or-raw-wrapped body. -/
structure GhlError (α : Type) where
  status : Nat
  response : JsonOrRaw α
deriving DecidableEq

/-- The fetch res.ok flag: status in the range 200-299. -/
def resOk (status : Nat) : Bool := 200 ≤ status && status ≤ 299

/-- The parsed-or-raw body of a fetch result (src/server.js:159-161). -/
def bodyOf {α : Type} (r : FetchRes α) : JsonOrRaw α :=
  match r.parsed with
  | some a => JsonOrRaw.parsed a
  | none => JsonOrRaw.raw r.text

/-- ghlRequest (src/server.js:144-173) on an abstracted fetch result:
non-2xx statuses surface the typed failure, 2xx returns the body. -/
def ghlRequest {α : Type} (r : FetchRes α) : Except (GhlError α) (JsonOrRaw α) :=
  if resOk r.status then Except.ok (bodyOf r)
  else Except.error ⟨r.status, bodyOf r⟩

/-- The contact member of an upsert response. -/
structure UContact where
  id : Option String
deriving DecidableEq

/-- The members of an upsert response the code reads (src/server.js:191). -/
structure UpsertResp where
  contact : Option UContact
  contactId : Option String
  id : Option String
deriving DecidableEq

/-- The contact-id extraction of upsertContact (src/server.js:191): the
first truthy of contact.id, contactId and id, null otherwise (a raw-wrapped
body has none of the three members). -/
def extractContactId : JsonOrRaw UpsertResp → Option String
  | JsonOrRaw.raw _ => none
  | JsonOrRaw.parsed u =>
    jsOr (u.contact.bind (fun c => c.id)) (jsOr u.contactId (jsOr u.id none))

/-- The members of a create-appointment response the code reads
(src/server.js:278). -/
structure ApptResp where
  id : Option String
deriving DecidableEq

/-- appointment?.id (src/server.js:278). -/
def apptIdOf : JsonOrRaw ApptResp → Option String
  | JsonOrRaw.parsed a => a.id
  | JsonOrRaw.raw _ => none

/-- One outbound custom-field entry: keyed by key for standard contact.*
paths, by id otherwise (src/server.js:181-186). -/
structure CFEntry where
  key : Option String
  id : Option String
  value : Option String
deriving DecidableEq

/-- The outbound upsert body (src/server.js:176-187). -/
structure OutContact where
  locationId : Option String
  name : String
  email : String
  phone : Option String
  customFields : List CFEntry
deriving DecidableEq

/-- Build the outbound upsert body (src/server.js:176-187). -/
def upsertContactBody (env : Env) (name : String) (email phone : Option String)
    (customFields : List (String × Option String)) : OutContact :=
  ⟨env.GHL_LOCATION_ID,
   jsOrS name "Unknown",
   (jsOr email (some "")).getD "",
   phone.bind (fun s => if s = "" then none else some s),
   customFields.map (fun p =>
     if strStartsWithSub p.1 "contact." then ⟨some p.1, none, p.2⟩
     else ⟨none, some p.1, p.2⟩)⟩

/-- The outbound appointment body (src/server.js:197-206). -/
structure OutAppt where
  locationId : Option String
  calendarId : Option String
  contactId : String
  title : String
  startTime : String
  endTime : String
  ignoreFreeSlotValidation : Bool
  assignedUserId : Option String
deriving DecidableEq

/-- Build the outbound appointment body (src/server.js:197-206); note
String(contactId) renders a null contact id as the string "null". -/
def createAppointmentBody (env : Env) (contactId : Option String)
    (startTime endTime : Option String) (title : String)
    (calendarId : Option String) (assignedUserId : Option String) : OutAppt :=
  ⟨env.GHL_LOCATION_ID,
   calendarId,
   jsStringOf contactId,
   jsOrS title "LunaCal Booking",
   jsStringOf startTime,
   jsStringOf endTime,
   true,
   assignedUserId.bind (fun s => if s = "" then none else some s)⟩

/-! ### Webhook Orchestrator (src/server.js:213-284) -/

/-- One outbound CRM Gateway call recorded in the trace. -/
inductive CrmCall where
  | upsert (body : OutContact)
  | createAppt (body : OutAppt)
deriving DecidableEq

/-- The debug member a validation-failure response could carry; the spec
describes it, the variant under verification never sets it. -/
structure DebugInfo where
  email : Option String
  startTime : Option String
  endTime : Option String
  targetCalendarId : Option String
deriving DecidableEq

/-- The JSON response body of the webhook route. -/
structure RespBody where
  ok : Bool
  message : String
  contactId : Option String
  appointmentId : Option String
  debug : Option DebugInfo
deriving DecidableEq

/-- The outcome of one request: HTTP status, response body, and the trace
of CRM Gateway calls issued. -/
structure HResult where
  status : Nat
  body : RespBody
  calls : List CrmCall
deriving DecidableEq

/-- Credentials check of src/server.js:217. -/
def configOk (env : Env) : Bool :=
  otruthy env.GHL_PRIVATE_TOKEN && otruthy env.GHL_LOCATION_ID

/-- The derived trigger event (src/server.js:223): the first truthy of
triggerEvent, event and type, else the empty string. -/
def triggerEventOf (b : Body) : String :=
  (jsOr b.triggerEvent (jsOr b.event (jsOr b.type (some "")))).getD ""

/-- normalizeTime (src/server.js:53-62), with the platform date parser
(new Date followed by the validity check and toISOString) abstracted as the
parseDate argument: falsy input and unparseable input yield null. -/
def normalizeTime (parseDate : String → Option String) (v : Option String) :
    Option String :=
  match v with
  | none => none
  | some s => if s = "" then none else parseDate s

/-- The validation predicate of src/server.js:259: truthy email, start
time, end time and target calendar id. -/
def validationOk (env : Env) (parseDate : String → Option String) (p : Payload) : Bool :=
  otruthy (extractAttendee p).email &&
  otruthy (normalizeTime parseDate (jsOr p.startTime p.start)) &&
  otruthy (normalizeTime parseDate (jsOr p.endTime p.endAlt)) &&
  otruthy (resolveRouting env (p.organizer.bind (fun o => o.email))).1

/-- The webhook route handler (src/server.js:213-284) as a pure function of
the configuration, the request body, the abstracted date parser and the two
upstream fetch results, returning the response and the CRM call trace. -/
def handleWebhook (env : Env) (parseDate : String → Option String)
    (reqBody : Option Body) (upsertRes : FetchRes UpsertResp)
    (apptRes : FetchRes ApptResp) : HResult :=
  if configOk env then
    let data := reqBody.getD emptyBody
    let triggerEvent := triggerEventOf data
    let payload := data.payload.getD data.self
    if strContainsSub (jsUpper triggerEvent) "PING" then
      ⟨200, ⟨true, "Received PING.", none, none, none⟩, []⟩
    else
      let startTime := normalizeTime parseDate (jsOr payload.startTime payload.start)
      let endTime := normalizeTime parseDate (jsOr payload.endTime payload.endAlt)
      let title := (jsOr payload.eventTitle (jsOr payload.title (some "LunaCal Booking"))).getD "LunaCal Booking"
      let att := extractAttendee payload
      let customFields := extractCustomFields (fieldMapOf env.CUSTOM_FIELD_MAPPING) payload
      let routing := resolveRouting env (payload.organizer.bind (fun o => o.email))
      if validationOk env parseDate payload then
        let ucBody := upsertContactBody env att.name att.email att.phone customFields
        match ghlRequest upsertRes with
        | Except.error e =>
          ⟨500, ⟨false, "GHL API error " ++ toString e.status, none, none, none⟩,
           [CrmCall.upsert ucBody]⟩
        | Except.ok uresp =>
          let contactId := extractContactId uresp
          let apBody := createAppointmentBody env contactId startTime endTime title routing.1 routing.2
          match ghlRequest apptRes with
          | Except.error e =>
            ⟨500, ⟨false, "GHL API error " ++ toString e.status, none, none, none⟩,
             [CrmCall.upsert ucBody, CrmCall.createAppt apBody]⟩
          | Except.ok aresp =>
            ⟨200, ⟨true, "Synced to GoHighLevel", contactId, apptIdOf aresp, none⟩,
             [CrmCall.upsert ucBody, CrmCall.createAppt apBody]⟩
      else ⟨400, ⟨false, "Missing required fields", none, none, none⟩, []⟩
  else ⟨500, ⟨false, "Missing GHL configuration", none, none, none⟩, []⟩

/-! ### Concrete fixtures used by witnesses and counterexamples -/

/-- A configured environment with empty mapping tables. -/
def envW : Env := ⟨some "token", some "loc1", some "cal_default", "", ""⟩

/-- A configured environment with one calendar route. -/
def envR : Env := ⟨some "token", some "loc1", some "cal_default", "jane@acme.com:cal_1:user_7", ""⟩

/-- A date parser accepting every input unchanged. -/
def pdId : String → Option String := fun s => some s

/-- A valid booking payload. -/
def c1Payload : Payload :=
  { emptyPayload with
      startTime := some "2024-01-01T10:00:00Z",
      endTime := some "2024-01-01T10:30:00Z",
      attendees := some [⟨some "Jo", some "jo@x.com", none⟩],
      organizer := some ⟨some "jane@acme.com"⟩ }

/-- A booking-created request body carrying c1Payload. -/
def c1Body : Body := { emptyBody with triggerEvent := some "BOOKING.CREATED", payload := some c1Payload }

/-- An upsert fetch result: HTTP 200 whose parsed body has none of the
three contact-id members. -/
def c1UpsertRes : FetchRes UpsertResp := ⟨200, "", some ⟨none, none, none⟩⟩

/-- A create-appointment fetch result: HTTP 200 with an appointment id. -/
def c1ApptRes : FetchRes ApptResp := ⟨200, "", some ⟨some "appt_1"⟩⟩

/-- A request body with start and end times but no email anywhere. -/
def c2Body : Body :=
  { emptyBody with
      self := { emptyPayload with
                  startTime := some "2024-01-01T10:00:00Z",
                  endTime := some "2024-01-01T10:30:00Z" } }

/-- A payload whose first attendee has an empty (defined but falsy) name
and whose top level carries a different name. -/
def c4Payload : Payload :=
  { emptyPayload with attendees := some [⟨some "", some "a@b.c", none⟩], name := some "Bob" }

/-- A payload whose single response label has a leading space. -/
def c5Payload1 : Payload :=
  { emptyPayload with responses := some [("q", ⟨some " a", some "v"⟩)] }

/-- A payload whose single response label has a question mark before the
space. -/
def c5Payload2 : Payload :=
  { emptyPayload with responses := some [("q", ⟨some "? a", some "v"⟩)] }

/-- A payload with a punctuated label variant. -/
def c5Payload3 : Payload :=
  { emptyPayload with responses := some [("q", ⟨some "Whats Your Role?", some "x"⟩)] }

/-- A payload with a re-spaced label variant of c5Payload3. -/
def c5Payload4 : Payload :=
  { emptyPayload with responses := some [("q", ⟨some "whats   your role", some "x"⟩)] }

/-- A payload with two entries matching the same configured label. -/
def c6Payload : Payload :=
  { emptyPayload with
      responses := some
        [("q1", ⟨some "Role?", some "ceo/founder"⟩),
         ("q2", ⟨some "role", some "Other"⟩)] }

/-- A ping request body. -/
def c8Body : Body := { emptyBody with event := some "lunacal.ping" }

/-- A failed fetch: HTTP 404 whose body is not JSON. -/
def c9Res404 : FetchRes UpsertResp := ⟨404, "oops", none⟩

/-- A successful fetch: HTTP 201 with a parsed body. -/
def c9Res201 : FetchRes UpsertResp := ⟨201, "", some ⟨none, some "c_1", none⟩⟩

/-! ### Helper lemmas -/

theorem jsOr_none (b : Option String) : jsOr none b = b := rfl

theorem jsOr_some (s : String) (b : Option String) :
    jsOr (some s) b = if s = "" then b else some s := rfl

theorem firstTruthy_eq_foldr_getD :
    ∀ (l : List (Option String)) (d : String),
      (l.foldr jsOr (some d)).getD d = (firstTruthy l).getD d := by
  intro l d
  induction l with
  | nil => rfl
  | cons o rest ih =>
    cases o with
    | none => simpa [firstTruthy, jsOr] using ih
    | some s =>
      by_cases hs : s = ""
      · simpa [firstTruthy, jsOr, hs] using ih
      · simp [firstTruthy, jsOr, hs]

theorem firstTruthy_eq_foldr :
    ∀ l : List (Option String), l.foldr jsOr none = firstTruthy l := by
  intro l
  induction l with
  | nil => rfl
  | cons o rest ih =>
    cases o with
    | none => simpa [firstTruthy, jsOr] using ih
    | some s =>
      by_cases hs : s = ""
      · simpa [firstTruthy, jsOr, hs] using ih
      · simp [firstTruthy, jsOr, hs]

theorem mapLookup_append_some {β : Type} {m1 : List (String × β)}
    (m2 : List (String × β)) {k : String} {v : β} (h : mapLookup m1 k = some v) :
    mapLookup (m1 ++ m2) k = some v := by
  induction m1 with
  | nil => simp [mapLookup] at h
  | cons p m1 ih =>
    by_cases hp : p.1 = k
    · simp [mapLookup, List.find?, hp] at h ⊢
      exact h
    · have hb : (p.1 == k) = false := by simpa using hp
      simp only [mapLookup, List.find?, hb, List.cons_append] at h ⊢
      exact ih h

theorem mapLookup_append_none {β : Type} {m1 : List (String × β)}
    (m2 : List (String × β)) {k : String} (h : mapLookup m1 k = none) :
    mapLookup (m1 ++ m2) k = mapLookup m2 k := by
  induction m1 with
  | nil => rfl
  | cons p m1 ih =>
    by_cases hp : p.1 = k
    · simp [mapLookup, List.find?, hp] at h
    · have hb : (p.1 == k) = false := by simpa using hp
      simp only [mapLookup, List.find?, hb, List.cons_append] at h ⊢
      exact ih h

theorem mapLookup_mem {β : Type} :
    ∀ (m : List (String × β)) (k : String) (v : β),
      mapLookup m k = some v → (k, v) ∈ m := by
  intro m k v h
  induction m with
  | nil => simp [mapLookup] at h
  | cons p m ih =>
    obtain ⟨k0, v0⟩ := p
    by_cases hp : k0 = k
    · subst hp
      simp [mapLookup, List.find?] at h
      subst h
      exact List.mem_cons_self _ _
    · have hb : (k0 == k) = false := by simpa using hp
      simp only [mapLookup, List.find?, hb] at h
      exact List.mem_cons_of_mem _ (ih h)

theorem table_values_truthy :
    ∀ p ∈ roleOptions ++ budgetOptions, p.2 ≠ "" := by decide

/-! ### Claim theorems -/

/-- Claim C3: for every input string, the Value Normalizer returns the
exact canonical spelling whenever the trimmed lower-cased input hits the
role or budget synonym tables, returns the trimmed but otherwise unmodified
input for every unrecognized string, and passes null and empty input
through unchanged. -/
theorem c3_value_normalizer :
    (∀ s c : String,
       mapLookup (roleOptions ++ budgetOptions) (jsLower (jsTrim s)) = some c →
       normalizeDropdownValue (some s) = some c) ∧
    (∀ s : String,
       mapLookup (roleOptions ++ budgetOptions) (jsLower (jsTrim s)) = none →
       normalizeDropdownValue (some s) = some (jsTrim s)) ∧
    normalizeDropdownValue none = none ∧
    normalizeDropdownValue (some "") = some "" := by
  refine ⟨?_, ?_, rfl, rfl⟩
  · intro s c h
    have hc : c ≠ "" := table_values_truthy _ (mapLookup_mem _ _ _ h)
    by_cases hs : s = ""
    · subst hs
      have : mapLookup (roleOptions ++ budgetOptions) (jsLower (jsTrim "")) = none := by decide
      rw [this] at h
      exact absurd h (by simp)
    · simp only [normalizeDropdownValue, if_neg hs]
      cases hr : mapLookup roleOptions (jsLower (jsTrim s)) with
      | some c1 =>
        have := mapLookup_append_some budgetOptions hr
        rw [this] at h
        cases h
        simp [hr, jsOr, hc]
      | none =>
        have hb := mapLookup_append_none budgetOptions hr
        rw [hb] at h
        simp only [hr, jsOr_none, h]
        simp [jsOr, hc]
  · intro s h
    by_cases hs : s = ""
    · subst hs
      rfl
    · simp only [normalizeDropdownValue, if_neg hs]
      cases hr : mapLookup roleOptions (jsLower (jsTrim s)) with
      | some c1 =>
        have := mapLookup_append_some budgetOptions hr
        rw [this] at h
        simp at h
      | none =>
        have hb := mapLookup_append_none budgetOptions hr
        rw [hb] at h
        simp only [hr, jsOr_none, h]

/-- Claim C3 witness: a case-variant synonym canonicalizes and an unknown
string is returned trimmed but unmodified. -/
theorem c3_witness :
    normalizeDropdownValue (some " CEO/Founder ") = some "CEO / Founder" ∧
    normalizeDropdownValue (some "Random Value ") = some "Random Value" := by
  constructor
  · exact c3_value_normalizer.1 " CEO/Founder " "CEO / Founder" (by decide)
  · have h := c3_value_normalizer.2.1 "Random Value " (by decide)
    simpa using h

/-- Claim C4 counterexample: with a first attendee whose name is the empty
string (defined but falsy) and a truthy top-level name, the code skips the
defined empty value and returns the later one, so the extractor does not
take the first defined value. -/
theorem c4_counterexample :
    extractAttendee c4Payload ≠ extractAttendeeFirstDefined c4Payload ∧
    (extractAttendee c4Payload).name = "Bob" ∧
    (extractAttendeeFirstDefined c4Payload).name = "" := by decide

/-- Claim C4 (amended): per field, the Attendee Extractor takes the first
truthy (present and nonempty) value of the ordered fallback chain, name
defaulting to Unknown and email and phone to null when every source is
absent or falsy; the extraction is a total function. -/
theorem c4_first_truthy (p : Payload) : extractAttendee p = extractAttendeeTruthy p := by
  have hn := firstTruthy_eq_foldr_getD (nameSources p) "Unknown"
  have he := firstTruthy_eq_foldr (emailSources p)
  have hp := firstTruthy_eq_foldr (phoneSources p)
  simp only [nameSources, emailSources, phoneSources, List.foldr] at hn he hp
  simp only [extractAttendee, extractAttendeeTruthy, nameSources, emailSources, phoneSources]
  rw [← hn, ← he, ← hp]

/-- Claim C9: ghlRequest surfaces every non-2xx status as a typed failure
carrying the status and the parsed body, a body that fails to parse being
wrapped as raw text; a 2xx status returns the parsed-or-raw-wrapped body. -/
theorem c9_request_errors {α : Type} (r : FetchRes α) :
    (resOk r.status = true → ghlRequest r = Except.ok (bodyOf r)) ∧
    (resOk r.status = false → ghlRequest r = Except.error ⟨r.status, bodyOf r⟩) ∧
    (r.parsed = none → bodyOf r = JsonOrRaw.raw r.text) ∧
    (∀ a, r.parsed = some a → bodyOf r = JsonOrRaw.parsed a) := by
  refine ⟨?_, ?_, ?_, ?_⟩
  · intro h; simp [ghlRequest, h]
  · intro h; simp [ghlRequest, h]
  · intro h; simp [bodyOf, h]
  · intro a h; simp [bodyOf, h]

/-- Claim C9 witness: a 404 with an unparseable body fails with the raw
text wrapped, and a 201 with a parsed body succeeds with that body. -/
theorem c9_witness :
    ghlRequest c9Res404 = Except.error ⟨404, JsonOrRaw.raw "oops"⟩ ∧
    ghlRequest c9Res201 = Except.ok (JsonOrRaw.parsed ⟨none, some "c_1", none⟩) := by
  constructor
  · exact (c9_request_errors c9Res404).2.1 (by decide)
  · exact (c9_request_errors c9Res201).1 (by decide)

/-- Claim C10: the domain correction is containment-based: every organizer
email whose lower-casing contains the needle anywhere is replaced wholesale
by the canonical address before the routing lookup, and every other email
reaches the lookup as its lower-casing, unchanged. -/
theorem c10_containment_correction (s : String) :
    (strContainsSub (jsLower s) surajNeedle = true →
      organizerKey (some s) = surajCanonical) ∧
    (strContainsSub (jsLower s) surajNeedle = false →
      organizerKey (some s) = jsLower s) ∧
    (∀ env : Env, resolveRouting env (some s) = routeFromKey env (organizerKey (some s))) := by
  refine ⟨?_, ?_, fun env => rfl⟩
  · intro h; simp [organizerKey, h]
  · intro h; simp [organizerKey, h]

/-- Claim C10 witness: an address embedding the needle mid-string is
replaced wholesale; an unrelated address passes through lower-cased. -/
theorem c10_witness :
    organizerKey (some "Foo.Suraj.Kumar@DigitalWebSolutions.com") = surajCanonical ∧
    organizerKey (some "Jane@Acme.com") = "jane@acme.com" := by
  constructor
  · exact (c10_containment_correction "Foo.Suraj.Kumar@DigitalWebSolutions.com").1 (by decide)
  · exact (c10_containment_correction "Jane@Acme.com").2.1 (by decide)

theorem findMatch_equiv (t : String) :
    ∀ {rs1 rs2 : List (String × RespEntry)}, List.Forall₂ labelValEquiv rs1 rs2 →
      (findMatch t rs1).map (fun e => e.2.value) =
        (findMatch t rs2).map (fun e => e.2.value) := by
  intro rs1 rs2 h
  induction h with
  | nil => rfl
  | @cons a b l1 l2 hab hrest ih =>
    have hm : entryMatches t a.2 = entryMatches t b.2 := by
      simp only [entryMatches, hab.1]
    by_cases hc : entryMatches t a.2 = true
    · have hc2 : entryMatches t b.2 = true := hm ▸ hc
      simp [findMatch, List.find?, hc, hc2, hab.2]
    · have hc1 : entryMatches t a.2 = false := by simpa using hc
      have hc2 : entryMatches t b.2 = false := hm ▸ hc1
      simpa [findMatch, List.find?, hc1, hc2] using ih

theorem extractGo_equiv {rs1 rs2 : List (String × RespEntry)}
    (h : List.Forall₂ labelValEquiv rs1 rs2) :
    ∀ (fm : List (String × String)) (acc : List (String × Option String)),
      extractFieldsGo rs1 fm acc = extractFieldsGo rs2 fm acc := by
  intro fm
  induction fm with
  | nil => intro acc; rfl
  | cons p rest ih =>
    intro acc
    obtain ⟨t, k⟩ := p
    have hf := findMatch_equiv t h
    cases h1 : findMatch t rs1 with
    | some e1 =>
      cases h2 : findMatch t rs2 with
      | some e2 =>
        have hv : e1.2.value = e2.2.value := by
          rw [h1, h2] at hf
          simpa using hf
        simp only [extractFieldsGo, h1, h2, hv]
        exact ih _
      | none =>
        rw [h1, h2] at hf
        simp at hf
    | none =>
      cases h2 : findMatch t rs2 with
      | some e2 =>
        rw [h1, h2] at hf
        simp at hf
      | none =>
        simp only [extractFieldsGo, h1, h2]
        exact ih _

/-- Claim C5 counterexample: the labels " a" and "? a" agree after
stripping non-word/non-space characters, lower-casing and collapsing
whitespace (the normalization the claim states, which lacks the initial
trim the code performs), yet with the configured pair a:k the first maps to
k and the second maps to nothing. -/
theorem c5_counterexample :
    claimNormLabel " a" = claimNormLabel "? a" ∧
    extractCustomFields (fieldMapOf "a:k") c5Payload1 = [("k", some "v")] ∧
    extractCustomFields (fieldMapOf "a:k") c5Payload2 = [] := by decide

/-- Claim C5 (amended): Field Mapper matching is invariant under
re-punctuation, re-casing and re-spacing of labels once trimming is added
to the stated normalization: payloads whose response entries agree
pointwise after trimming, lower-casing, stripping non-word/non-space
characters and collapsing whitespace (and carry equal values) produce the
same mapping for every configured table. -/
theorem c5_label_insensitive (fm : List (String × String)) (p1 p2 : Payload)
    (h : List.Forall₂ labelValEquiv (p1.responses.getD []) (p2.responses.getD [])) :
    extractCustomFields fm p1 = extractCustomFields fm p2 := by
  unfold extractCustomFields
  exact extractGo_equiv h fm []

/-- Claim C5 witness: a punctuated and a re-spaced variant of the same
label produce the same mapping. -/
theorem c5_witness :
    extractCustomFields [("whats your role", "rk")] c5Payload3 =
      extractCustomFields [("whats your role", "rk")] c5Payload4 :=
  c5_label_insensitive _ _ _ (List.Forall₂.cons ⟨by decide, rfl⟩ List.Forall₂.nil)

theorem mapLookup_mapSet_self {β : Type} :
    ∀ (m : List (String × β)) (k : String) (v : β),
      mapLookup (mapSet m k v) k = some v := by
  intro m k v
  induction m with
  | nil => simp [mapSet, mapLookup, List.find?]
  | cons p m ih =>
    obtain ⟨k0, v0⟩ := p
    by_cases hp : k0 = k
    · simp [mapSet, hp, mapLookup, List.find?]
    · simp only [mapSet, if_neg hp]
      have hb : (k0 == k) = false := by simpa using hp
      simpa [mapLookup, List.find?, hb] using ih

theorem mapLookup_mapSet_ne {β : Type} :
    ∀ (m : List (String × β)) (k0 k : String) (v : β), k0 ≠ k →
      mapLookup (mapSet m k0 v) k = mapLookup m k := by
  intro m k0 k v hne
  induction m with
  | nil =>
    have hb : (k0 == k) = false := by simpa using hne
    simp [mapSet, mapLookup, List.find?, hb]
  | cons p m ih =>
    obtain ⟨k1, v1⟩ := p
    by_cases hp : k1 = k0
    · subst hp
      have hb : (k1 == k) = false := by simpa using hne
      simp [mapSet, mapLookup, List.find?, hb]
    · simp only [mapSet, if_neg hp]
      by_cases hk1 : k1 = k
      · simp [mapLookup, List.find?, hk1]
      · have hb1 : (k1 == k) = false := by simpa using hk1
        simpa [mapLookup, List.find?, hb1] using ih

theorem extractGo_lookup_notin (rs : List (String × RespEntry)) (k : String) :
    ∀ (fm : List (String × String)) (acc : List (String × Option String)),
      k ∉ fm.map Prod.snd →
      mapLookup (extractFieldsGo rs fm acc) k = mapLookup acc k := by
  intro fm
  induction fm with
  | nil => intro acc _; rfl
  | cons p rest ih =>
    intro acc hk
    obtain ⟨t, k0⟩ := p
    simp only [List.map_cons, List.mem_cons, not_or] at hk
    obtain ⟨hk0, hkrest⟩ := hk
    cases hm : findMatch t rs with
    | some e =>
      simp only [extractFieldsGo, hm]
      rw [ih _ hkrest]
      exact mapLookup_mapSet_ne _ _ _ _ (Ne.symm hk0)
    | none =>
      simp only [extractFieldsGo, hm]
      exact ih _ hkrest

theorem extractGo_lookup (rs : List (String × RespEntry)) (t k : String) :
    ∀ (fm : List (String × String)) (acc : List (String × Option String)),
      (t, k) ∈ fm → (fm.map Prod.snd).Nodup →
      mapLookup (extractFieldsGo rs fm acc) k =
        match findMatch t rs with
        | some e => some (normalizeDropdownValue e.2.value)
        | none => mapLookup acc k := by
  intro fm
  induction fm with
  | nil =>
    intro acc hmem _
    simp at hmem
  | cons p rest ih =>
    intro acc hmem hnd
    obtain ⟨t0, k0⟩ := p
    simp only [List.map_cons, List.nodup_cons] at hnd
    obtain ⟨hk0notin, hndrest⟩ := hnd
    rcases List.mem_cons.mp hmem with heq | hmemrest
    · injection heq with ht hk
      subst ht
      subst hk
      cases hm : findMatch t rs with
      | some e =>
        simp only [extractFieldsGo, hm]
        rw [extractGo_lookup_notin rs k rest _ hk0notin]
        exact mapLookup_mapSet_self _ _ _
      | none =>
        simp only [extractFieldsGo, hm]
        exact extractGo_lookup_notin rs k rest acc hk0notin
    · have hk0 : k0 ≠ k := by
        intro he
        subst he
        exact hk0notin (List.mem_map_of_mem Prod.snd hmemrest)
      cases hm0 : findMatch t0 rs with
      | some e0 =>
        simp only [extractFieldsGo, hm0]
        rw [ih (mapSet acc k0 (normalizeDropdownValue e0.2.value)) hmemrest hndrest]
        cases hm : findMatch t rs with
        | some e => rfl
        | none => exact mapLookup_mapSet_ne _ _ _ _ hk0
      | none =>
        simp only [extractFieldsGo, hm0]
        exact ih acc hmemrest hndrest

/-- Claim C6: with pairwise-distinct outbound keys, the value stored under
the outbound key of a configured pair is exactly the normalized value of the
first structurally matching response entry, and nothing is stored when no
entry matches (so at most one value is stored per configured label, first
match wins, and unmatched labels are skipped). -/
theorem c6_first_match_wins (fm : List (String × String)) (p : Payload) (t k : String)
    (hnd : (fm.map Prod.snd).Nodup) (hmem : (t, k) ∈ fm) :
    mapLookup (extractCustomFields fm p) k =
      (findMatch t (p.responses.getD [])).map
        (fun e => normalizeDropdownValue e.2.value) := by
  unfold extractCustomFields
  rw [extractGo_lookup _ t k fm [] hmem hnd]
  cases hm : findMatch t (p.responses.getD []) with
  | some e => rfl
  | none => rfl

/-- Claim C6 witness: with two entries matching the configured label, the
stored value is the normalized value of the first one. -/
theorem c6_witness :
    mapLookup (extractCustomFields [("role", "rk")] c6Payload) "rk" =
      (findMatch "role" (c6Payload.responses.getD [])).map
        (fun e => normalizeDropdownValue e.2.value) ∧
    mapLookup (extractCustomFields [("role", "rk")] c6Payload) "rk" =
      some (some "CEO / Founder") := by
  constructor
  · exact c6_first_match_wins _ _ _ _ (by decide) (by decide)
  · decide

theorem mem_mapSet {β : Type} :
    ∀ (m : List (String × β)) (k : String) (v : β) (q : String × β),
      q ∈ mapSet m k v → q = (k, v) ∨ q ∈ m := by
  intro m k v q h
  induction m with
  | nil => simpa [mapSet] using h
  | cons p m ih =>
    obtain ⟨k0, v0⟩ := p
    by_cases hp : k0 = k
    · simp only [mapSet, if_pos hp] at h
      rcases List.mem_cons.mp h with h1 | h1
      · exact Or.inl h1
      · exact Or.inr (List.mem_cons_of_mem _ h1)
    · simp only [mapSet, if_neg hp] at h
      rcases List.mem_cons.mp h with h1 | h1
      · exact Or.inr (h1 ▸ List.mem_cons_self _ _)
      · rcases ih h1 with h2 | h2
        · exact Or.inl h2
        · exact Or.inr (List.mem_cons_of_mem _ h2)

theorem calRouteOfItem_key_ne {item e : String} {r : CalRoute}
    (h : calRouteOfItem item = some (e, r)) : e ≠ "" := by
  simp only [calRouteOfItem] at h
  split at h
  · split at h
    · rename_i hcond
      simp only [Bool.and_eq_true, decide_eq_true_eq] at hcond
      injection h with h2
      injection h2 with he hr
      subst he
      exact hcond.1
    · exact absurd h (by simp)
  · exact absurd h (by simp)

theorem calendarMapBuild_keys_ne :
    ∀ (items : List String) (m : List (String × CalRoute)),
      (∀ q ∈ m, q.1 ≠ "") → ∀ q ∈ calendarMapBuild items m, q.1 ≠ "" := by
  intro items
  induction items with
  | nil =>
    intro m hm q hq
    exact hm q hq
  | cons item rest ih =>
    intro m hm q hq
    cases hi : calRouteOfItem item with
    | some p =>
      obtain ⟨e, r⟩ := p
      simp only [calendarMapBuild, hi] at hq
      refine ih _ ?_ q hq
      intro q0 hq0
      rcases mem_mapSet _ _ _ _ hq0 with h1 | h1
      · rw [h1]
        exact calRouteOfItem_key_ne hi
      · exact hm q0 h1
    | none =>
      simp only [calendarMapBuild, hi] at hq
      exact ih _ hm q hq

theorem calendarMapOf_key_ne {cfg k : String} {r : CalRoute}
    (h : mapLookup (calendarMapOf cfg) k = some r) : k ≠ "" := by
  have hmem := mapLookup_mem _ _ _ h
  unfold calendarMapOf at hmem
  by_cases hc : cfg = ""
  · simp [hc] at hmem
  · rw [if_neg hc] at hmem
    exact calendarMapBuild_keys_ne _ [] (by simp) (k, r) hmem

/-- Claim C7: the Routing Resolver lower-cases the organizer email, applies
the domain correction (both inside organizerKey), and looks the key up in
the parsed calendar-route map: a hit returns exactly the mapped calendar
and user pair, a miss returns the configured default calendar with a null
user. -/
theorem c7_routing_resolver (env : Env) (e : String) :
    (∀ r : CalRoute,
       mapLookup (calendarMapOf env.CALENDAR_MAPPING) (organizerKey (some e)) = some r →
       resolveRouting env (some e) = (some r.calId, r.userId)) ∧
    (mapLookup (calendarMapOf env.CALENDAR_MAPPING) (organizerKey (some e)) = none →
       resolveRouting env (some e) = (env.GHL_CALENDAR_ID, none)) := by
  constructor
  · intro r h
    have hk : organizerKey (some e) ≠ "" := calendarMapOf_key_ne h
    simp [resolveRouting, routeFromKey, hk, h]
  · intro h
    by_cases hk : organizerKey (some e) = ""
    · simp [resolveRouting, routeFromKey, hk]
    · simp [resolveRouting, routeFromKey, hk, h]

/-- Claim C7 witness: the mapped organizer resolves to exactly its pair,
case-insensitively, and an unmapped organizer falls back to the default
calendar with a null user. -/
theorem c7_witness :
    resolveRouting envR (some "Jane@Acme.com") = (some "cal_1", some "user_7") ∧
    resolveRouting envR (some "bob@x.com") = (some "cal_default", none) := by
  constructor
  · exact (c7_routing_resolver envR "Jane@Acme.com").1 ⟨"cal_1", some "user_7"⟩ (by decide)
  · exact (c7_routing_resolver envR "bob@x.com").2 (by decide)

/-- Claim C8: under configured credentials, every request whose derived
trigger event case-insensitively contains PING is answered 200 with the
ping acknowledgement and an empty CRM call trace. -/
theorem c8_ping_no_side_effects (env : Env) (parseDate : String → Option String)
    (b : Option Body) (u : FetchRes UpsertResp) (a : FetchRes ApptResp)
    (hc : configOk env = true)
    (hp : strContainsSub (jsUpper (triggerEventOf (b.getD emptyBody))) "PING" = true) :
    handleWebhook env parseDate b u a =
      ⟨200, ⟨true, "Received PING.", none, none, none⟩, []⟩ := by
  simp [handleWebhook, hc, hp]

/-- Claim C8 witness: a ping-classified request is acknowledged with 200
and no CRM calls. -/
theorem c8_witness :
    handleWebhook envW pdId (some c8Body) c1UpsertRes c1ApptRes =
      ⟨200, ⟨true, "Received PING.", none, none, none⟩, []⟩ :=
  c8_ping_no_side_effects envW pdId (some c8Body) c1UpsertRes c1ApptRes
    (by decide) (by decide)

/-- Claim C2 counterexample: for a configured environment and a request
with valid times but no email anywhere, the handler answers 400 with zero
CRM calls but its body carries no debug member (debug is none), so the
offending field values are not included in the response body. -/
theorem c2_counterexample :
    (handleWebhook envW pdId (some c2Body) c1UpsertRes c1ApptRes).status = 400 ∧
    (handleWebhook envW pdId (some c2Body) c1UpsertRes c1ApptRes).calls = [] ∧
    (handleWebhook envW pdId (some c2Body) c1UpsertRes c1ApptRes).body.debug = none ∧
    (extractAttendee (c2Body.payload.getD c2Body.self)).email = none := by decide

/-- Claim C2 (amended): under configured credentials and a non-ping event,
every request failing the required-field validation (truthy email, start
time, end time and resolved calendar id) is answered 400 with the fixed
body of message Missing required fields, without the offending field
values, and with zero CRM Gateway calls. -/
theorem c2_validation_failure (env : Env) (parseDate : String → Option String)
    (b : Option Body) (u : FetchRes UpsertResp) (a : FetchRes ApptResp)
    (hc : configOk env = true)
    (hp : strContainsSub (jsUpper (triggerEventOf (b.getD emptyBody))) "PING" = false)
    (hv : validationOk env parseDate
        ((b.getD emptyBody).payload.getD (b.getD emptyBody).self) = false) :
    handleWebhook env parseDate b u a =
      ⟨400, ⟨false, "Missing required fields", none, none, none⟩, []⟩ := by
  simp [handleWebhook, hc, hp, hv]

/-- Claim C2 witness: a request missing its email is answered 400 with zero
CRM calls. -/
theorem c2_witness :
    handleWebhook envW pdId (some c2Body) c1UpsertRes c1ApptRes =
      ⟨400, ⟨false, "Missing required fields", none, none, none⟩, []⟩ :=
  c2_validation_failure envW pdId (some c2Body) c1UpsertRes c1ApptRes
    (by decide) (by decide) (by decide)

/-- Claim C1: on a valid booking request whose HTTP-200 upsert response
carries none of the three contact-id members, the code extracts no contact
id yet still issues the create-appointment call (with the contact id
rendered as the string "null") and answers 200 — it does not surface an
upstream error, diverging from the documented behavior. -/
theorem c1_missing_contact_id_behavior :
    extractContactId (bodyOf c1UpsertRes) = none ∧
    (handleWebhook envW pdId (some c1Body) c1UpsertRes c1ApptRes).status = 200 ∧
    ((handleWebhook envW pdId (some c1Body) c1UpsertRes c1ApptRes).calls.map
      (fun c => match c with
        | CrmCall.createAppt body => some body.contactId
        | CrmCall.upsert _ => none)) = [none, some "null"] := by decide

end LunaCal
